import Mathlib

/-!
# Verification of notifieru (Rust): config parser and todo report formatter

Shallow embedding of the two source files `src/secrets.rs` and `src/main.rs`.
Strings are modelled as `List Char`; the ASCII inputs the program deals with
make Rust's byte indexing coincide with character indexing, so the byte slice
`&t[..8]` is modelled as `List.take 8` and its panic condition as the list
having fewer than 8 characters.  Fallible operations return `Except` (for
`Result`) and a Rust panic is modelled as `Option.none` at the outer level.
-/

instance {ε α : Type} [DecidableEq ε] [DecidableEq α] :
    DecidableEq (Except ε α) := fun x y =>
  match x, y with
  | .error a, .error b =>
    if h : a = b then .isTrue (by rw [h]) else .isFalse (by simp [h])
  | .error _, .ok _ => .isFalse (by simp)
  | .ok _, .error _ => .isFalse (by simp)
  | .ok a, .ok b =>
    if h : a = b then .isTrue (by rw [h]) else .isFalse (by simp [h])

/-- The single-quote character, used in the source's error messages. -/
def squote : Char := Char.ofNat 39

/-- Decimal rendering of a line number / index, as Rust's `format!` does. -/
def natChars (n : Nat) : List Char := (Nat.repr n).data

/-- Rust `str::trim`: drop leading and trailing whitespace. -/
def trimChars (s : List Char) : List Char :=
  ((s.dropWhile Char.isWhitespace).reverse.dropWhile Char.isWhitespace).reverse

/-- Rust `str::split_once(c)`: split at the first occurrence of `c`,
returning the part before and the part after (the delimiter excluded),
or `none` when `c` does not occur. -/
def splitOnceChar (c : Char) : List Char → Option (List Char × List Char)
  | [] => none
  | x :: xs =>
    if x = c then some ([], xs)
    else (splitOnceChar c xs).map (fun p => (x :: p.1, p.2))

/-! ## `src/secrets.rs` -/

/-- `Secret { db_url, api_key }` from `secrets.rs`. -/
structure Secret where
  db_url : List Char
  api_key : List Char
deriving DecidableEq

/-- Error message of `check_val_empty`: `value is empty at {file}:{line}`. -/
def emptyValueMsg (file : List Char) (line : Nat) : List Char :=
  "value is empty at ".data ++ file ++ [':'] ++ natChars line

/-- Error message for an unrecognized key:
`unexpected key {sq}{key}{sq} at {file}:{i}` where `{sq}` is a single quote. -/
def unexpectedKeyMsg (key : List Char) (file : List Char) (i : Nat) : List Char :=
  "unexpected key ".data ++ [squote] ++ key ++ [squote] ++ " at ".data
    ++ file ++ [':'] ++ natChars i

/-- Error message for a line without the `=` delimiter:
`invalid line format at {file}:{i}`. -/
def invalidLineMsg (file : List Char) (i : Nat) : List Char :=
  "invalid line format at ".data ++ file ++ [':'] ++ natChars i

/-- Error message for a key never set: `{key} value not found in {file}`. -/
def missingKeyMsg (key : List Char) (file : List Char) : List Char :=
  key ++ " value not found in ".data ++ file

/-- `check_val_empty` from `secrets.rs`: error when the value is empty
(checked before trimming), otherwise the trimmed value. -/
def check_val_empty (value : List Char) (file : List Char) (line : Nat) :
    Except (List Char) (List Char) :=
  if value = [] then .error (emptyValueMsg file line)
  else .ok (trimChars value)

/-- The loop body and tail of `parse_secrets`: processes the remaining
lines, carrying the 1-based number of the next line and the values of
`DB_URL` and `API_KEY` seen so far; after the lines are consumed, checks
`DB_URL` then `API_KEY`. -/
def parse_lines (file : List Char) :
    List (List Char) → Nat → Option (List Char) → Option (List Char) →
    Except (List Char) Secret
  | [], _, db_url, api_key =>
    match db_url with
    | none => .error (missingKeyMsg "DB_URL".data file)
    | some d =>
      match api_key with
      | none => .error (missingKeyMsg "API_KEY".data file)
      | some a => .ok ⟨d, a⟩
  | line :: rest, i, db_url, api_key =>
    match splitOnceChar '=' line with
    | some (key, value) =>
      if trimChars key = "DB_URL".data then
        match check_val_empty value file i with
        | .error e => .error e
        | .ok v => parse_lines file rest (i + 1) (some v) api_key
      else if trimChars key = "API_KEY".data then
        match check_val_empty value file i with
        | .error e => .error e
        | .ok v => parse_lines file rest (i + 1) db_url (some v)
      else .error (unexpectedKeyMsg key file i)
    | none => .error (invalidLineMsg file i)

/-- `parse_secrets` from `secrets.rs`, over the list of lines the buffered
reader yields (line terminators already stripped). -/
def parse_secrets (lines : List (List Char)) (file : List Char) :
    Except (List Char) Secret :=
  parse_lines file lines 1 none none

/-! ## `src/main.rs`: JSON model -/

/-- `serde_json::Value`. -/
inductive Json where
  | null : Json
  | bool : Bool → Json
  | num : Int → Json
  | str : List Char → Json
  | arr : List Json → Json
  | obj : List (String × Json) → Json

/-- `value["key"]`: field of an object, `Null` when absent or when the
value is not an object (serde_json's non-panicking index). -/
def Json.get (j : Json) (k : String) : Json :=
  match j with
  | .obj fields => (fields.lookup k).getD .null
  | _ => .null

/-- `value[i]`: element of an array, `Null` when out of range or when the
value is not an array. -/
def Json.getIdx (j : Json) (n : Nat) : Json :=
  match j with
  | .arr xs => xs.getD n .null
  | _ => .null

/-- `Value::as_str`. -/
def Json.as_str : Json → Option (List Char)
  | .str s => some s
  | _ => none

/-- `Value::as_bool`. -/
def Json.as_bool : Json → Option Bool
  | .bool b => some b
  | _ => none

/-! ## `src/main.rs`: date rendering and todo processing -/

/-- `push_datetime` from `main.rs`.  The source splits on the first `T` and
appends `"{ymd} {&t[..8]}"`; the byte slice `&t[..8]` panics when the time
part is shorter than 8, modelled by `none`.  Without a `T` the input is
appended unchanged. -/
def push_datetime (datetime : List Char) : Option (List Char) :=
  match splitOnceChar 'T' datetime with
  | some (ymd, t) =>
    if t.length < 8 then none
    else some (ymd ++ [' '] ++ t.take 8)
  | none => some datetime

/-- The title lookup `properties["Name"]["title"][0]["plain_text"].as_str()`. -/
def titleOf (todo : Json) : Option (List Char) :=
  ((((todo.get "properties").get "Name").get "title").getIdx 0).get "plain_text"
    |>.as_str

/-- The start date lookup `properties["Due"]["date"]["start"].as_str()`. -/
def startOf (todo : Json) : Option (List Char) :=
  (((todo.get "properties").get "Due").get "date").get "start" |>.as_str

/-- The end date lookup `properties["Due"]["date"]["end"].as_str()`. -/
def endOf (todo : Json) : Option (List Char) :=
  (((todo.get "properties").get "Due").get "date").get "end" |>.as_str

/-- The done lookup `properties["Done"]["checkbox"].as_bool()`. -/
def doneOf (todo : Json) : Option Bool :=
  ((todo.get "properties").get "Done").get "checkbox" |>.as_bool

/-- Per-record error `todo {i}: missing or invalid title`. -/
def titleErrMsg (i : Nat) : List Char :=
  "todo ".data ++ natChars i ++ ": missing or invalid title".data

/-- Per-record error `todo {i}: missing or invalid {sq}Done{sq} checkbox`. -/
def doneErrMsg (i : Nat) : List Char :=
  "todo ".data ++ natChars i ++ ": missing or invalid ".data
    ++ [squote] ++ "Done".data ++ [squote] ++ " checkbox".data

/-- `"x"` when done, a single space otherwise. -/
def todoMarker (done : Bool) : List Char := if done then ['x'] else [' ']

/-- Rust `{:35}` on a string: left-aligned, space-padded to a minimum
width of 35 characters; longer strings are left as they are. -/
def pad35 (s : List Char) : List Char :=
  s ++ List.replicate (35 - s.length) ' '

/-- The fixed line prefix `format!("[{}] {}: {:35} | ", marker, i, title)`. -/
def todoLineBase (i : Nat) (done : Bool) (title : List Char) : List Char :=
  ['['] ++ todoMarker done ++ [']', ' '] ++ natChars i ++ [':', ' ']
    ++ pad35 title ++ [' ', '|', ' ']

/-- The body of the `for` loop of `process_todos` for one record at index
`i`: either one error message (`.error`), or one printed line (`.ok`);
`none` models a panic inside `push_datetime`. -/
def process_todo (i : Nat) (todo : Json) :
    Option (Except (List Char) (List Char)) :=
  match titleOf todo with
  | none => some (.error (titleErrMsg i))
  | some title =>
    let start_date := startOf todo
    let end_date := endOf todo
    match doneOf todo with
    | none => some (.error (doneErrMsg i))
    | some done =>
      let out0 := todoLineBase i done title
      match start_date with
      | none =>
        match end_date with
        | none => some (.ok out0)
        | some e =>
          (push_datetime e).map (fun r => .ok (out0 ++ [' ', '~', ' '] ++ r))
      | some s =>
        match push_datetime s with
        | none => none
        | some r1 =>
          match end_date with
          | none => some (.ok (out0 ++ r1))
          | some e =>
            (push_datetime e).map
              (fun r2 => .ok (out0 ++ r1 ++ [' ', '~', ' '] ++ r2))

/-- The loop of `process_todos` from index `i` on: the lines printed to
stdout and the error messages collected, both in encounter order; `none`
models a panic aborting the run. -/
def process_list : List Json → Nat →
    Option (List (List Char) × List (List Char))
  | [], _ => some ([], [])
  | t :: ts, i =>
    match process_todo i t with
    | none => none
    | some (.error e) =>
      (process_list ts (i + 1)).map (fun p => (p.1, e :: p.2))
    | some (.ok l) =>
      (process_list ts (i + 1)).map (fun p => (l :: p.1, p.2))

/-- `process_todos` restricted to its record loop (the todos of the
`results` array, enumerated from 0). -/
def process_todos (todos : List Json) :
    Option (List (List Char) × List (List Char)) :=
  process_list todos 0

/-! ## Helper lemmas about `splitOnceChar` -/

lemma splitOnceChar_of_not_mem (c : Char) (s : List Char) (h : c ∉ s) :
    splitOnceChar c s = none := by
  induction s with
  | nil => rfl
  | cons x xs ih =>
    simp only [List.mem_cons, not_or] at h
    have hx : ¬ x = c := fun hx => h.1 hx.symm
    simp [splitOnceChar, hx, ih h.2]

lemma splitOnceChar_append (c : Char) (pre post : List Char) (h : c ∉ pre) :
    splitOnceChar c (pre ++ c :: post) = some (pre, post) := by
  induction pre with
  | nil => simp [splitOnceChar]
  | cons x xs ih =>
    simp only [List.mem_cons, not_or] at h
    have hx : ¬ x = c := fun hx => h.1 hx.symm
    simp [splitOnceChar, hx, ih h.2]

lemma splitOnceChar_not_mem_left (c : Char) :
    ∀ (s k v : List Char), splitOnceChar c s = some (k, v) → c ∉ k := by
  intro s
  induction s with
  | nil => intro k v h; simp [splitOnceChar] at h
  | cons x xs ih =>
    intro k v h
    rw [splitOnceChar] at h
    by_cases hx : x = c
    · rw [if_pos hx] at h
      simp only [Option.some.injEq, Prod.mk.injEq] at h
      rw [← h.1]
      simp
    · rw [if_neg hx] at h
      cases hsplit : splitOnceChar c xs with
      | none => rw [hsplit] at h; simp at h
      | some p =>
        rw [hsplit] at h
        simp only [Option.map_some', Option.some.injEq, Prod.mk.injEq] at h
        rw [← h.1]
        simp only [List.mem_cons, not_or]
        exact ⟨fun hc => hx hc.symm, ih p.1 p.2 (by rw [hsplit])⟩

/-! ## Claims about `push_datetime` (DateRenderer) -/

/-- C1 counterexample: on the input `2024-01-15T09:30`, whose time
component after the `T` has only 5 characters, the slice `&t[..8]` in
`push_datetime` is out of range and the function panics instead of
returning a string, so `render` is not total. -/
theorem push_datetime_short_time_panics :
    push_datetime ("2024-01-15T09:30".data) = none := by decide

/-- C1 amended: `push_datetime` returns a string on every input whose
time component after the first `T`, when there is one, has at least 8
characters (in particular on every input without a `T`); on an input with
a shorter time component it panics. -/
theorem push_datetime_total_on_long_times (s : List Char)
    (h : ∀ d t, splitOnceChar 'T' s = some (d, t) → 8 ≤ t.length) :
    ∃ r, push_datetime s = some r := by
  cases hs : splitOnceChar 'T' s with
  | none => exact ⟨s, by simp [push_datetime, hs]⟩
  | some p =>
    have h8 := h p.1 p.2 (by rw [hs])
    exact ⟨p.1 ++ [' '] ++ p.2.take 8,
      by simp [push_datetime, hs, Nat.not_lt.mpr h8]⟩

theorem push_datetime_total_on_long_times_witness :
    splitOnceChar 'T' ("2024-01-15T09:30:00".data)
      = some ("2024-01-15".data, "09:30:00".data) ∧
    ∃ r, push_datetime ("2024-01-15T09:30:00".data) = some r := by
  refine ⟨by decide, push_datetime_total_on_long_times _ ?_⟩
  intro d t hdt
  rw [show splitOnceChar 'T' ("2024-01-15T09:30:00".data)
      = some ("2024-01-15".data, "09:30:00".data) from by decide] at hdt
  simp only [Option.some.injEq, Prod.mk.injEq] at hdt
  rw [← hdt.2]
  decide

/-- C7: on an input made of a date part without a `T`, the `T` separator
and a time part of at least 8 characters, `push_datetime` emits the date
part, a single space, and the first 8 characters of the time part; on an
input without a `T` it emits the input unchanged; in particular
`2024-01-15T09:30:00.000Z` renders as `2024-01-15 09:30:00` and
`2024-01-15` renders unchanged. -/
theorem push_datetime_renders (d t s : List Char) :
    ('T' ∉ d → 8 ≤ t.length →
      push_datetime (d ++ 'T' :: t) = some (d ++ [' '] ++ t.take 8)) ∧
    ('T' ∉ s → push_datetime s = some s) ∧
    push_datetime ("2024-01-15T09:30:00.000Z".data)
      = some ("2024-01-15 09:30:00".data) ∧
    push_datetime ("2024-01-15".data) = some ("2024-01-15".data) := by
  refine ⟨fun hd h8 => ?_, fun hs => ?_, by decide, by decide⟩
  · simp [push_datetime, splitOnceChar_append 'T' d t hd, Nat.not_lt.mpr h8]
  · simp [push_datetime, splitOnceChar_of_not_mem 'T' s hs]

theorem push_datetime_renders_witness :
    ('T' ∉ ("2024-01-15".data)) ∧ 8 ≤ ("09:30:00.000Z".data).length ∧
    push_datetime ("2024-01-15".data ++ 'T' :: "09:30:00.000Z".data)
      = some ("2024-01-15".data ++ [' '] ++ ("09:30:00.000Z".data).take 8) :=
  ⟨by decide, by decide,
    (push_datetime_renders ("2024-01-15".data) ("09:30:00.000Z".data) []).1
      (by decide) (by decide)⟩

/-! ## Claims about `check_val_empty` / `parse_secrets` (ConfigParser) -/

/-- C2 counterexample: the value of `DB_URL= ` consists only of
whitespace, so it is empty after trimming, yet the parser does not fail:
it stores the empty string as the `DB_URL` credential value. -/
theorem parse_secrets_stores_empty_value :
    parse_secrets ["DB_URL= ".data, "API_KEY=k".data] ("<secrets_file>".data)
      = .ok ⟨[], ['k']⟩ := by decide

/-- C2 amended: the parser fails with the `value is empty` error, carrying
the line's 1-based number, exactly when the value is empty before
trimming; a value that is non-empty before trimming (even one made only
of whitespace) is accepted and stored trimmed, so a whitespace-only value
is stored as the empty string. -/
theorem check_val_empty_pre_trim (value file : List Char) (i : Nat) :
    (check_val_empty value file i = .error (emptyValueMsg file i) ↔
      value = []) ∧
    (value ≠ [] → check_val_empty value file i = .ok (trimChars value)) ∧
    (∀ rest, parse_secrets ("DB_URL=".data :: rest) file
      = .error (emptyValueMsg file 1)) := by
  have htrim : trimChars ("DB_URL".data) = "DB_URL".data := by decide
  have hsplit : splitOnceChar '=' ("DB_URL=".data)
      = some ("DB_URL".data, []) := by decide
  refine ⟨⟨fun h => ?_, fun h => by simp [check_val_empty, h]⟩,
    fun h => by simp [check_val_empty, h], fun rest => ?_⟩
  · by_contra hv
    simp [check_val_empty, hv] at h
  · simp [parse_secrets, parse_lines, hsplit, htrim, check_val_empty]

theorem check_val_empty_pre_trim_witness :
    (" ".data ≠ ([] : List Char)) ∧
    check_val_empty (" ".data) ("f".data) 1 = .ok (trimChars (" ".data)) :=
  ⟨by decide, (check_val_empty_pre_trim (" ".data) ("f".data) 1).2.1 (by decide)⟩

/-- C4: a two-line input with `DB_URL=` followed by a non-empty value and
`API_KEY=` followed by a non-empty value parses, in either line order, to
the `Secret` holding both values trimmed of surrounding whitespace. -/
theorem parse_secrets_two_lines (v1 v2 file : List Char)
    (h1 : v1 ≠ []) (h2 : v2 ≠ []) :
    parse_secrets ["DB_URL=".data ++ v1, "API_KEY=".data ++ v2] file
      = .ok ⟨trimChars v1, trimChars v2⟩ ∧
    parse_secrets ["API_KEY=".data ++ v2, "DB_URL=".data ++ v1] file
      = .ok ⟨trimChars v1, trimChars v2⟩ := by
  have e1 : splitOnceChar '=' ('D' :: 'B' :: '_' :: 'U' :: 'R' :: 'L' :: '=' :: v1)
      = some (['D', 'B', '_', 'U', 'R', 'L'], v1) :=
    splitOnceChar_append '=' ['D', 'B', '_', 'U', 'R', 'L'] v1 (by decide)
  have e2 : splitOnceChar '=' ('A' :: 'P' :: 'I' :: '_' :: 'K' :: 'E' :: 'Y' :: '=' :: v2)
      = some (['A', 'P', 'I', '_', 'K', 'E', 'Y'], v2) :=
    splitOnceChar_append '=' ['A', 'P', 'I', '_', 'K', 'E', 'Y'] v2 (by decide)
  have t1 : trimChars ['D', 'B', '_', 'U', 'R', 'L']
      = ['D', 'B', '_', 'U', 'R', 'L'] := by decide
  have t2 : trimChars ['A', 'P', 'I', '_', 'K', 'E', 'Y']
      = ['A', 'P', 'I', '_', 'K', 'E', 'Y'] := by decide
  have hne : (['A', 'P', 'I', '_', 'K', 'E', 'Y'] : List Char)
      ≠ ['D', 'B', '_', 'U', 'R', 'L'] := by decide
  constructor <;>
    simp [parse_secrets, parse_lines, e1, e2, t1, t2, hne, check_val_empty,
      h1, h2]

theorem parse_secrets_two_lines_witness :
    ("http://localhost:1234".data ≠ ([] : List Char)) ∧
    ("myapikey".data ≠ ([] : List Char)) ∧
    parse_secrets ["DB_URL=".data ++ "http://localhost:1234".data,
        "API_KEY=".data ++ "myapikey".data] ("<secrets_file>".data)
      = .ok ⟨trimChars ("http://localhost:1234".data),
             trimChars ("myapikey".data)⟩ :=
  ⟨by decide, by decide,
    (parse_secrets_two_lines ("http://localhost:1234".data) ("myapikey".data)
      ("<secrets_file>".data) (by decide) (by decide)).1⟩

/-- A line that sets `API_KEY` and parses without error: it has an `=`
delimiter, its trimmed key is `API_KEY`, and its value is non-empty. -/
def goodApiLine (l : List Char) : Bool :=
  match splitOnceChar '=' l with
  | some (k, v) => decide (trimChars k = "API_KEY".data) && decide (v ≠ [])
  | none => false

lemma parse_lines_no_db (file : List Char) :
    ∀ (ls : List (List Char)) (i : Nat) (api : Option (List Char)),
      (∀ l ∈ ls, goodApiLine l = true) →
      parse_lines file ls i none api
        = .error (missingKeyMsg "DB_URL".data file) := by
  intro ls
  induction ls with
  | nil => intro i api _; rfl
  | cons l rest ih =>
    intro i api hall
    have hl := hall l (List.mem_cons_self l rest)
    cases hsplit : splitOnceChar '=' l with
    | none => simp [goodApiLine, hsplit] at hl
    | some p =>
      obtain ⟨k, v⟩ := p
      simp only [goodApiLine, hsplit, Bool.and_eq_true, decide_eq_true_eq] at hl
      have hne : trimChars k ≠ "DB_URL".data := by rw [hl.1]; decide
      simp only [parse_lines, hsplit, hne, if_false, hl.1, if_true,
        check_val_empty, hl.2, if_neg hl.2]
      exact ih (i + 1) (some (trimChars v))
        (fun x hx => hall x (List.mem_cons_of_mem _ hx))

/-- C5: when every config line is a well-formed `API_KEY` line (so
`DB_URL` never appears; in particular when there are no lines at all and
both keys are absent), the parser fails with the error naming `DB_URL`:
`DB_URL value not found in {file}`. -/
theorem parse_secrets_missing_db_url (lines : List (List Char))
    (file : List Char) (h : ∀ l ∈ lines, goodApiLine l = true) :
    parse_secrets lines file = .error (missingKeyMsg "DB_URL".data file) :=
  parse_lines_no_db file lines 1 none h

theorem parse_secrets_missing_db_url_witness :
    (∀ l ∈ [("API_KEY=myapikey".data)], goodApiLine l = true) ∧
    parse_secrets ["API_KEY=myapikey".data] ("<secrets_file>".data)
      = .error ("DB_URL value not found in <secrets_file>".data) := by
  refine ⟨by decide, ?_⟩
  rw [parse_secrets_missing_db_url _ _ (by decide)]
  decide

/-- A config line that parses without error: it has an `=` delimiter, its
trimmed key is `DB_URL` or `API_KEY`, and its value is non-empty. -/
def goodLine (l : List Char) : Bool :=
  match splitOnceChar '=' l with
  | some (k, v) =>
    (decide (trimChars k = "DB_URL".data)
      || decide (trimChars k = "API_KEY".data)) && decide (v ≠ [])
  | none => false

lemma parse_lines_good_append (file : List Char) :
    ∀ (gs : List (List Char)), (∀ l ∈ gs, goodLine l = true) →
    ∀ (rest : List (List Char)) (i : Nat) (db api : Option (List Char)),
      ∃ db2 api2, parse_lines file (gs ++ rest) i db api
        = parse_lines file rest (i + gs.length) db2 api2 := by
  intro gs
  induction gs with
  | nil => intro _ rest i db api; exact ⟨db, api, by simp⟩
  | cons l ls ih =>
    intro hall rest i db api
    have hl := hall l (List.mem_cons_self l ls)
    cases hsplit : splitOnceChar '=' l with
    | none => simp [goodLine, hsplit] at hl
    | some p =>
      obtain ⟨k, v⟩ := p
      simp only [goodLine, hsplit, Bool.and_eq_true, Bool.or_eq_true,
        decide_eq_true_eq] at hl
      obtain ⟨hk, hv⟩ := hl
      have harith : i + 1 + ls.length = i + (l :: ls).length := by
        simp [List.length_cons]; omega
      cases hk with
      | inl hdb =>
        obtain ⟨db2, api2, hrec⟩ :=
          ih (fun x hx => hall x (List.mem_cons_of_mem _ hx)) rest (i + 1)
            (some (trimChars v)) api
        refine ⟨db2, api2, ?_⟩
        rw [← harith, ← hrec]
        simp [parse_lines, hsplit, hdb, check_val_empty, hv]
      | inr hapi =>
        have hne : trimChars k ≠ "DB_URL".data := by rw [hapi]; decide
        obtain ⟨db2, api2, hrec⟩ :=
          ih (fun x hx => hall x (List.mem_cons_of_mem _ hx)) rest (i + 1)
            db (some (trimChars v))
        refine ⟨db2, api2, ?_⟩
        rw [← harith, ← hrec]
        simp [parse_lines, hsplit, hne, hapi, check_val_empty, hv]

/-- C6: when the lines before position `gs.length + 1` all parse without
error and the line there is error-producing — it has no `=` delimiter, or
its trimmed key is neither `DB_URL` nor `API_KEY` — the parser returns
that line's error immediately, whatever lines follow; the error carries
the 1-based line number and, for an unexpected key, the raw key (the part
of the line before the first `=`, so the delimiter is the first `=` and
any further `=` belongs to the value). -/
theorem parse_secrets_fail_fast (file l : List Char)
    (gs rest : List (List Char)) (hgood : ∀ p ∈ gs, goodLine p = true) :
    (splitOnceChar '=' l = none →
      parse_secrets (gs ++ l :: rest) file
        = .error (invalidLineMsg file (gs.length + 1))) ∧
    (∀ key v, splitOnceChar '=' l = some (key, v) →
      trimChars key ≠ "DB_URL".data → trimChars key ≠ "API_KEY".data →
      '=' ∉ key ∧
      parse_secrets (gs ++ l :: rest) file
        = .error (unexpectedKeyMsg key file (gs.length + 1))) := by
  obtain ⟨db2, api2, hpre⟩ :=
    parse_lines_good_append file gs hgood (l :: rest) 1 none none
  rw [Nat.add_comm 1 gs.length] at hpre
  constructor
  · intro hnone
    rw [parse_secrets, hpre]
    simp [parse_lines, hnone]
  · intro key v hsome hdb hapi
    refine ⟨splitOnceChar_not_mem_left '=' l key v hsome, ?_⟩
    rw [parse_secrets, hpre]
    simp [parse_lines, hsome, hdb, hapi]

theorem parse_secrets_fail_fast_witness :
    (∀ p ∈ [("DB_URL=u".data)], goodLine p = true) ∧
    splitOnceChar '=' ("INVALID_KEY=value".data)
      = some ("INVALID_KEY".data, "value".data) ∧
    parse_secrets (["DB_URL=u".data] ++ "INVALID_KEY=value".data
        :: ["no delimiter here".data]) ("<secrets_file>".data)
      = .error ("unexpected key ".data ++ [squote] ++ "INVALID_KEY".data
          ++ [squote] ++ " at <secrets_file>:2".data) := by
  refine ⟨by decide, by decide, ?_⟩
  have h := (parse_secrets_fail_fast ("<secrets_file>".data)
    ("INVALID_KEY=value".data) ["DB_URL=u".data] ["no delimiter here".data]
    (by decide)).2 ("INVALID_KEY".data) ("value".data) (by decide)
    (by decide) (by decide)
  rw [h.2]
  decide

/-! ## Claims about `process_todos` (RecordExtractor / ReportFormatter) -/

lemma process_list_length :
    ∀ (todos : List Json) (i : Nat) (ls es : List (List Char)),
      process_list todos i = some (ls, es) →
      ls.length + es.length = todos.length := by
  intro todos
  induction todos with
  | nil =>
    intro i ls es h
    simp only [process_list, Option.some.injEq, Prod.mk.injEq] at h
    simp [← h.1, ← h.2]
  | cons t ts ih =>
    intro i ls es h
    rw [process_list] at h
    cases hp : process_todo i t with
    | none => rw [hp] at h; simp at h
    | some r =>
      rw [hp] at h
      cases r with
      | error e =>
        cases hrec : process_list ts (i + 1) with
        | none => rw [hrec] at h; simp at h
        | some p =>
          rw [hrec] at h
          simp only [Option.map_some', Option.some.injEq, Prod.mk.injEq] at h
          have hlen := ih (i + 1) p.1 p.2 (by rw [hrec])
          rw [← h.1, ← h.2]
          simp only [List.length_cons]
          omega
      | ok l =>
        cases hrec : process_list ts (i + 1) with
        | none => rw [hrec] at h; simp at h
        | some p =>
          rw [hrec] at h
          simp only [Option.map_some', Option.some.injEq, Prod.mk.injEq] at h
          have hlen := ih (i + 1) p.1 p.2 (by rw [hrec])
          rw [← h.1, ← h.2]
          simp only [List.length_cons]
          omega

/-- C3: whenever the record loop completes (no panic), every input record
contributes exactly one printed line or exactly one error entry:
the counts satisfy `lines.length + errors.length = records.length`. -/
theorem process_todos_outcome_count (todos : List Json)
    (ls es : List (List Char)) (h : process_todos todos = some (ls, es)) :
    ls.length + es.length = todos.length :=
  process_list_length todos 0 ls es h

/-- A record with a title, a done flag, and a due range: used as concrete
witness input. -/
def sampleTodoDue : Json :=
  .obj [("properties", .obj [
    ("Name", .obj [("title", .arr [.obj [("plain_text",
      .str ("Buy milk".data))]])]),
    ("Done", .obj [("checkbox", .bool true)]),
    ("Due", .obj [("date", .obj [
      ("start", .str ("2024-01-15T09:30:00.000Z".data)),
      ("end", .null)])])])]

/-- A record whose title array is empty and whose `Done` checkbox is also
missing: used as concrete witness input. -/
def sampleTodoBad : Json :=
  .obj [("properties", .obj [
    ("Name", .obj [("title", .arr [])]),
    ("Done", .obj [])])]

theorem process_todos_outcome_count_witness :
    process_todos [sampleTodoDue, sampleTodoBad]
      = some (["[x] 0: Buy milk                            | 2024-01-15 09:30:00".data],
              [titleErrMsg 1]) ∧
    (["[x] 0: Buy milk                            | 2024-01-15 09:30:00".data] : List (List Char)).length
        + ([titleErrMsg 1] : List (List Char)).length
      = ([sampleTodoDue, sampleTodoBad] : List Json).length :=
  ⟨by decide, process_todos_outcome_count _ _ _ (by decide)⟩

/-- C8: for an extracted record (title and done flag both present, dates
rendering without panic) the emitted line is
`[{marker}] {i}: {padded title} | ` followed by the rendered start date
when present, and ` ~ ` plus the rendered end date when present; with no
due dates at all the line ends at the ` | ` separator.  The marker is `x`
exactly when done, and the title is padded to a minimum width of 35
characters, never truncated. -/
theorem process_todo_line_shape (i : Nat) (todo : Json) (title : List Char)
    (done : Bool) (htitle : titleOf todo = some title)
    (hdone : doneOf todo = some done) :
    (startOf todo = none → endOf todo = none →
      process_todo i todo = some (.ok (todoLineBase i done title))) ∧
    (∀ s r1, startOf todo = some s → push_datetime s = some r1 →
      endOf todo = none →
      process_todo i todo = some (.ok (todoLineBase i done title ++ r1))) ∧
    (∀ s r1 e r2, startOf todo = some s → push_datetime s = some r1 →
      endOf todo = some e → push_datetime e = some r2 →
      process_todo i todo = some (.ok
        (todoLineBase i done title ++ r1 ++ [' ', '~', ' '] ++ r2))) ∧
    (todoMarker true = ['x'] ∧ todoMarker false = [' ']) ∧
    35 ≤ (pad35 title).length ∧
    (pad35 title).take title.length = title ∧
    (35 ≤ title.length → pad35 title = title) := by
  refine ⟨?_, ?_, ?_, ⟨rfl, rfl⟩, ?_, ?_, ?_⟩
  · intro hs he
    simp [process_todo, htitle, hdone, hs, he]
  · intro s r1 hs hr1 he
    simp [process_todo, htitle, hdone, hs, hr1, he]
  · intro s r1 e r2 hs hr1 he hr2
    simp [process_todo, htitle, hdone, hs, hr1, he, hr2]
  · simp [pad35]
    omega
  · simp [pad35, List.take_left]
  · intro h35
    simp [pad35, Nat.sub_eq_zero_of_le h35]

theorem process_todo_line_shape_witness :
    titleOf sampleTodoDue = some ("Buy milk".data) ∧
    doneOf sampleTodoDue = some true ∧
    startOf sampleTodoDue = some ("2024-01-15T09:30:00.000Z".data) ∧
    endOf sampleTodoDue = none ∧
    push_datetime ("2024-01-15T09:30:00.000Z".data)
      = some ("2024-01-15 09:30:00".data) ∧
    process_todo 0 sampleTodoDue = some (.ok
      (todoLineBase 0 true ("Buy milk".data) ++ "2024-01-15 09:30:00".data)) :=
  ⟨by decide, by decide, by decide, by decide, by decide,
    (process_todo_line_shape 0 sampleTodoDue ("Buy milk".data) true
      (by decide) (by decide)).2.1 ("2024-01-15T09:30:00.000Z".data)
      ("2024-01-15 09:30:00".data) (by decide) (by decide) (by decide)⟩

/-- C9: a record whose title lookup fails (path absent, value not a
string, or title array empty) contributes exactly one error entry, the
title error tagged with the record's index, and no line; the `Done` field
is never examined, so no checkbox error is recorded for the record. -/
theorem process_todo_title_error (i : Nat) (todo : Json)
    (h : titleOf todo = none) :
    process_todo i todo = some (.error (titleErrMsg i)) := by
  simp [process_todo, h]

theorem process_todo_title_error_witness :
    titleOf sampleTodoBad = none ∧
    doneOf sampleTodoBad = none ∧
    process_todo 2 sampleTodoBad = some (.error (titleErrMsg 2)) :=
  ⟨by decide, by decide, process_todo_title_error 2 sampleTodoBad (by decide)⟩

/-- C10: a record with a valid title and done flag, no start date, and a
present end date still yields a line: the rendered end date follows the
` ~ ` separator directly after the ` | ` separator, with nothing in the
start position. -/
theorem process_todo_end_only (i : Nat) (todo : Json) (title : List Char)
    (done : Bool) (e r2 : List Char)
    (htitle : titleOf todo = some title) (hdone : doneOf todo = some done)
    (hs : startOf todo = none) (he : endOf todo = some e)
    (hr2 : push_datetime e = some r2) :
    process_todo i todo
      = some (.ok (todoLineBase i done title ++ [' ', '~', ' '] ++ r2)) := by
  simp [process_todo, htitle, hdone, hs, he, hr2]

/-- A record with a valid title and done flag whose due range has a null
start but a string end date: used as concrete witness input. -/
def sampleTodoEndOnly : Json :=
  .obj [("properties", .obj [
    ("Name", .obj [("title", .arr [.obj [("plain_text",
      .str ("Ship report".data))]])]),
    ("Done", .obj [("checkbox", .bool false)]),
    ("Due", .obj [("date", .obj [
      ("start", .null),
      ("end", .str ("2024-02-01T17:00:00Z".data))])])])]

theorem process_todo_end_only_witness :
    titleOf sampleTodoEndOnly = some ("Ship report".data) ∧
    doneOf sampleTodoEndOnly = some false ∧
    startOf sampleTodoEndOnly = none ∧
    endOf sampleTodoEndOnly = some ("2024-02-01T17:00:00Z".data) ∧
    push_datetime ("2024-02-01T17:00:00Z".data)
      = some ("2024-02-01 17:00:00".data) ∧
    process_todo 4 sampleTodoEndOnly = some (.ok
      ("[ ] 4: Ship report                         |  ~ 2024-02-01 17:00:00".data)) := by
  refine ⟨by decide, by decide, by decide, by decide, by decide, ?_⟩
  rw [process_todo_end_only 4 sampleTodoEndOnly ("Ship report".data) false
    ("2024-02-01T17:00:00Z".data) ("2024-02-01 17:00:00".data)
    (by decide) (by decide) (by decide) (by decide) (by decide)]
  decide
